import Mathlib

/-!
# goiban: BIC resolution and bank-registry ingestion

A shallow embedding of `external_data.go` (package `goiban`).

Modelling conventions.

* A Go `string` is a sequence of bytes.  It is embedded as a Lean `String`
  whose characters stand for the bytes, so `len(s)` is `s.data.length` and
  `s[lo:hi]` is a sub-list of `s.data`.
* A Go `int` is embedded as `Int`.
* A Go panic and `log.Fatalf` end the computation; they are explicit results.
* Pointers are read by value: `*ValidationResult` and `*data.BankInfo` are the
  records they point to, and a function that mutates its argument returns the
  mutated record.
* `data.BankDataRepository` is an interface of another module; it is a
  parameter, and every call of `Find` is recorded in a call log.
* `COUNTRY_CODE_TO_BANK_CODE_LENGTH`, `readLines`, `xlsx.FileToSlice` and the
  parsers of package `countries` are declared outside `external_data.go`; they
  are parameters.
-/

namespace Goiban

/-! ## Go runtime -/

/-- Ways in which the Go runtime aborts a goroutine. -/
inductive GoPanic where
  | sliceOutOfRange
  | indexOutOfRange
  | message (msg : String)
  deriving DecidableEq, Repr

deriving instance DecidableEq for Except

/-- Go `len(s)`. -/
def len (s : String) : Int := (s.data.length : Int)

/-- The bytes of `s` from position `lo` (inclusive) to `hi` (exclusive). -/
def substr (s : String) (lo hi : Nat) : String :=
  String.mk ((s.data.drop lo).take (hi - lo))

/-- Go `s[lo:hi]`: panics unless `0 ≤ lo ≤ hi ≤ len(s)`. -/
def goSlice (s : String) (lo hi : Int) : Except GoPanic String :=
  if 0 ≤ lo ∧ lo ≤ hi ∧ hi ≤ len s then
    .ok (substr s lo.toNat hi.toNat)
  else
    .error .sliceOutOfRange

/-! ## Data model -/

/-- Modelled from the spec: the struct `data.BankInfo` is declared in the module
`goiban-data`; the fields are those of the canonical bank entry of the data
model.  `GetBic` reads `Bankcode` and writes `Bic`. -/
structure BankInfo where
  Bankcode : String
  Name : String
  Zip : String
  City : String
  Bic : String
  Country : String
  deriving DecidableEq, Repr

/-- Modelled from the spec: the struct `Iban` is declared outside
`external_data.go`; these are the two fields `GetBic` reads. -/
structure Iban where
  countryCode : String
  bban : String
  deriving DecidableEq, Repr

/-- Modelled from the spec: the struct `ValidationResult` is declared outside
`external_data.go`; the fields are those of the data model (valid, messages,
bankData). -/
structure ValidationResult where
  Valid : Bool
  Messages : List String
  BankData : BankInfo
  deriving DecidableEq, Repr

/-- The map `COUNTRY_CODE_TO_BANK_CODE_LENGTH` (`map[string]int`). -/
abbrev CountryCodeLengthTable := String → Option Int

/-- The interface `data.BankDataRepository`: `Find` returns the Go pair
`(*BankInfo, error)`; `none` stands for `nil` in either component. -/
structure BankDataRepository where
  Find : String → String → Option BankInfo × Option String

/-- A computation together with the log of the `Find` calls it made, each
recorded as `(countryCode, bankCode)`. -/
structure Traced (α : Type) where
  calls : List (String × String)
  result : Except GoPanic α

/-! ## BIC resolution -/

/-- The function `GetBankInformationByCountryAndBankCodeFromDb`. -/
def GetBankInformationByCountryAndBankCodeFromDb (countryCode bankCode : String)
    (repo : BankDataRepository) : Traced (Option BankInfo) :=
  let found := repo.Find countryCode bankCode
  { calls := [(countryCode, bankCode)]
    result :=
      match found.2 with
      | some _ => .error (.message "Failed to load bank info from db.")
      | none => .ok found.1 }

/-- The condition of the Commerzbank rule (issue #17),
`iban.countryCode == "DE" && len(bankData.Bankcode) > 6 && bankData.Bankcode[3:6] == "400"`,
with the short-circuit evaluation of `&&`. -/
def commerzbankCondition (countryCode : String) (bankData : BankInfo) : Except GoPanic Bool :=
  if countryCode = "DE" then
    if 6 < len bankData.Bankcode then
      match goSlice bankData.Bankcode 3 6 with
      | .ok s => .ok (decide (s = "400"))
      | .error p => .error p
    else .ok false
  else .ok false

/-- The function `GetBic`, over the table `COUNTRY_CODE_TO_BANK_CODE_LENGTH`. -/
def GetBic (table : CountryCodeLengthTable) (iban : Iban)
    (intermediateResult : ValidationResult) (repo : BankDataRepository) :
    Traced ValidationResult :=
  match table iban.countryCode with
  | none =>
    { calls := []
      result := .ok { intermediateResult with
        Messages := intermediateResult.Messages ++ ["Cannot get BIC. No information available."] } }
  | some length =>
    if len iban.bban < length then
      { calls := []
        result := .ok { intermediateResult with
          Messages := intermediateResult.Messages ++ ["Cannot get BIC for BBAN " ++ iban.bban] } }
    else
      match goSlice iban.bban 0 length with
      | .error p => { calls := [], result := .error p }
      | .ok bankCode =>
        let q := GetBankInformationByCountryAndBankCodeFromDb iban.countryCode bankCode repo
        match q.result with
        | .error p => { calls := q.calls, result := .error p }
        | .ok none =>
          { calls := q.calls
            result := .ok { intermediateResult with
              Messages := intermediateResult.Messages ++ ["No BIC found for bank code: " ++ bankCode] } }
        | .ok (some bankData) =>
          match commerzbankCondition iban.countryCode bankData with
          | .error p => { calls := q.calls, result := .error p }
          | .ok true =>
            { calls := q.calls
              result := .ok { intermediateResult with
                BankData := { bankData with Bic := "COBADEFFXXX" } } }
          | .ok false =>
            { calls := q.calls
              result := .ok { intermediateResult with BankData := bankData } }

/-! ## Sample data of the test suite -/

/-- The two table entries the tests rely on: German bank codes have eight
characters (`"12040000"`), Belgian ones three (`"001"`). -/
def sampleTable : CountryCodeLengthTable := fun cc =>
  if cc = "DE" then some 8 else if cc = "BE" then some 3 else none

/-- A small repository: one German and one Belgian institution. -/
def sampleRepo : BankDataRepository where
  Find := fun cc bc =>
    if cc = "DE" ∧ bc = "12040000" then
      (some ⟨"12040000", "Commerzbank", "10891", "Berlin", "COBADEBBXXX", "DE"⟩, none)
    else if cc = "BE" ∧ bc = "001" then
      (some ⟨"001", "bpost bank", "1000", "Brussels", "BPOTBEB1", "BE"⟩, none)
    else (none, none)

/-- A repository whose every lookup fails with a storage error. -/
def brokenRepo : BankDataRepository where
  Find := fun _ _ => (none, some "connection lost")

/-- The result `NewValidationResult(true, "", input)` starts from: no messages,
zero-valued bank data. -/
def freshResult : ValidationResult :=
  { Valid := true, Messages := [], BankData := ⟨"", "", "", "", "", ""⟩ }

/-- The IBAN `DE12120400000052065002` of `TestSpecialRuleForCommerzbankBic`:
country code `DE`, BBAN `120400000052065002`. -/
def ibanCommerzbank : Iban := ⟨"DE", "120400000052065002"⟩

/-- What `GetBic` does once the bank code has been extracted: one `Find` call,
then the three exits that follow it. -/
def afterLookup (iban : Iban) (r : ValidationResult) (repo : BankDataRepository)
    (bankCode : String) : Traced ValidationResult :=
  { calls := [(iban.countryCode, bankCode)]
    result :=
      match (repo.Find iban.countryCode bankCode).2, (repo.Find iban.countryCode bankCode).1 with
      | some _, _ => .error (.message "Failed to load bank info from db.")
      | none, none =>
        .ok { Valid := r.Valid
              Messages := r.Messages ++ ["No BIC found for bank code: " ++ bankCode]
              BankData := r.BankData }
      | none, some e =>
        .ok { Valid := r.Valid
              Messages := r.Messages
              BankData :=
                if iban.countryCode = "DE" ∧ 6 < len e.Bankcode ∧ substr e.Bankcode 3 6 = "400"
                then { e with Bic := "COBADEFFXXX" } else e } }

/-! ## Ingestion pipeline -/

/-- The format markers `ReadFileToEntries` switches on (the dynamic type of its
argument `t`); `other` is a value of any other type, `nil` included. -/
inductive FileEntryType where
  | AustriaBankFileEntry
  | BundesbankFileEntry
  | BelgiumFileEntry
  | NetherlandsFileEntry
  | LuxembourgFileEntry
  | SwitzerlandFileEntry
  | LiechtensteinFileEntry
  | other
  deriving DecidableEq, Repr

/-- A value sent on the channel `out` (an `interface{}`): `nil`, the entry a
parser returned, or the slice of entries the Belgian parser returned. -/
inductive StreamValue (E : Type) where
  | absent
  | entry (e : E)
  | entries (es : List E)
  deriving DecidableEq, Repr

/-- An operation the producer performs on `out`. -/
inductive ChanEvent (E : Type) where
  | send (v : StreamValue E)
  | close
  deriving DecidableEq, Repr

/-- How a block of `ReadFileToEntries` is left: control reaches the statement
after it (`next`), the function returns (`ret`), `log.Fatalf` halts the process
(`fatal`), or the runtime panics. -/
inductive Flow where
  | next
  | ret
  | fatal (msg : String)
  | panicked (p : GoPanic)
  deriving DecidableEq, Repr

/-- The operations performed on `out`, in order, and how the block was left. -/
structure Produced (E : Type) where
  events : List (ChanEvent E)
  exit : Flow
  deriving DecidableEq, Repr

/-- What `ReadFileToEntries` uses and `external_data.go` does not define: the
length table, the line reader (`readLines path` is the sequence of lines the
reader delivers on `cLines` before closing it; a file that cannot be opened
delivers what the reader delivers for it), `xlsx.FileToSlice`, and the record
parsers of package `countries`, which return a value for every record. -/
structure Env (E : Type) where
  table : CountryCodeLengthTable
  readLines : String → List String
  FileToSlice : String → Except String (List (List (List String)))
  AustriaBankStringToEntry : String → CountryCodeLengthTable → E
  BundesbankStringToEntry : String → E
  BelgiumRowToEntry : List String → List E
  NetherlandsRowToEntry : List String → E
  LuxembourgRowToEntry : List String → E
  SwitzerlandRowToEntry : List String → CountryCodeLengthTable → E
  LiechtensteinRowToEntry : List String → CountryCodeLengthTable → E

/-- The Austrian loop `for l := range cLines`, entered with the counter `num`
(a Go `int`; a file is far shorter than its range). -/
def austriaLoop {E : Type} (parse : String → E) : Int → List String → Produced E
  | _, [] => { events := [], exit := .next }
  | num, l :: ls =>
    if num + 1 < 7 then austriaLoop parse (num + 1) ls
    else if len l = 0 then { events := [.send .absent], exit := .ret }
    else
      let rest := austriaLoop parse (num + 1) ls
      { events := .send (.entry (parse l)) :: rest.events, exit := rest.exit }

/-- The Bundesbank loop `for l := range cLines`. -/
def bundesbankLoop {E : Type} (parse : String → E) : List String → Produced E
  | [] => { events := [], exit := .next }
  | l :: ls =>
    if len l = 0 then { events := [.send .absent], exit := .ret }
    else
      let rest := bundesbankLoop parse ls
      { events := .send (.entry (parse l)) :: rest.events, exit := rest.exit }

/-- A loop `for _, r := range rows` whose body performs `body r` on `out` and
has no early exit. -/
def rangeRows {E : Type} (body : List String → List (ChanEvent E)) :
    List (List String) → List (ChanEvent E)
  | [] => []
  | r :: rs => body r ++ rangeRows body rs

/-- The Belgian loop body:
`entries := co.BelgiumRowToEntry(r); if len(entries) > 0 { out <- entries }`. -/
def belgiumBody {E : Type} (parse : List String → List E) (r : List String) :
    List (ChanEvent E) :=
  if 0 < (parse r).length then [.send (.entries (parse r))] else []

/-- The loop body `out <- parse(r)` of the other spreadsheet formats. -/
def rowBody {E : Type} (parse : List String → E) (r : List String) : List (ChanEvent E) :=
  [.send (.entry (parse r))]

/-- The block `rows := file[0]; for _, r := range rows[skip:] { body }`:
`file[0]` panics on a workbook without sheets, `rows[skip:]` on a sheet with
fewer than `skip` rows. -/
def sheetLoop {E : Type} (file : List (List (List String))) (skip : Nat)
    (body : List String → List (ChanEvent E)) : Produced E :=
  match file with
  | [] => { events := [], exit := .panicked .indexOutOfRange }
  | rows :: _ =>
    if rows.length < skip then { events := [], exit := .panicked .sliceOutOfRange }
    else { events := rangeRows body (rows.drop skip), exit := .next }

/-- The `switch t := t.(type)` statement of `ReadFileToEntries`. -/
def switchBody {E : Type} (env : Env E) (path : String) (t : FileEntryType) : Produced E :=
  match t with
  | .other => { events := [], exit := .next }
  | .AustriaBankFileEntry =>
    let cLines := env.readLines path
    let temp := cLines.headD ""
    if temp = "" then { events := [.send .absent], exit := .ret }
    else austriaLoop (fun l => env.AustriaBankStringToEntry l env.table) 0 cLines.tail
  | .BundesbankFileEntry =>
    bundesbankLoop env.BundesbankStringToEntry (env.readLines path)
  | .BelgiumFileEntry =>
    match env.FileToSlice path with
    | .error err => { events := [], exit := .fatal ("Couldn't read belgium file, " ++ err) }
    | .ok file => sheetLoop file 2 (belgiumBody env.BelgiumRowToEntry)
  | .NetherlandsFileEntry =>
    match env.FileToSlice path with
    | .error err => { events := [], exit := .fatal ("Couldn't read netherlands file, " ++ err) }
    | .ok file => sheetLoop file 2 (rowBody env.NetherlandsRowToEntry)
  | .LuxembourgFileEntry =>
    match env.FileToSlice path with
    | .error err => { events := [], exit := .fatal ("Couldn't read luxembourg file, " ++ err) }
    | .ok file => sheetLoop file 2 (rowBody env.LuxembourgRowToEntry)
  | .SwitzerlandFileEntry =>
    match env.FileToSlice path with
    | .error err => { events := [], exit := .fatal ("Couldn't read switzerland file, " ++ err) }
    | .ok file => sheetLoop file 2 (rowBody (fun r => env.SwitzerlandRowToEntry r env.table))
  | .LiechtensteinFileEntry =>
    match env.FileToSlice path with
    | .error _ => { events := [.send .absent], exit := .ret }
    | .ok file => sheetLoop file 1 (rowBody (fun r => env.LiechtensteinRowToEntry r env.table))

/-- The function `ReadFileToEntries`: the switch, then `close(out)` when
control leaves the switch at its end. -/
def ReadFileToEntries {E : Type} (env : Env E) (path : String) (t : FileEntryType) :
    Produced E :=
  let body := switchBody env path t
  match body.exit with
  | .next => { events := body.events ++ [.close], exit := .ret }
  | _ => body

/-- The number of `close(out)` operations. -/
def closes {E : Type} : List (ChanEvent E) → Nat
  | [] => 0
  | .send _ :: es => closes es
  | .close :: es => closes es + 1

/-- The first `<-out` of a consumer: the first value sent, or `nil` from a
closed channel; `none` when the producer stops without sending or closing. -/
def firstReceived {E : Type} : List (ChanEvent E) → Option (StreamValue E)
  | [] => none
  | .send v :: _ => some v
  | .close :: _ => some .absent

/-- An environment for examples: entries are the raw records themselves, the
file `lines.txt` has the eight lines `"1"` to `"8"`, `blank.txt` starts with an
empty line, `gap.txt` has nine lines of which the seventh is empty, `book.xlsx` has one sheet of five rows, and no other file exists. -/
def sampleEnv : Env (List String) where
  table := sampleTable
  readLines := fun path =>
    if path = "lines.txt" then ["1", "2", "3", "4", "5", "6", "7", "8"]
    else if path = "blank.txt" then ["", "x"]
    else if path = "data.txt" then ["a", "b", "", "c"]
    else if path = "gap.txt" then ["1", "2", "3", "4", "5", "6", "", "8", "9"]
    else []
  FileToSlice := fun path =>
    if path = "book.xlsx" then .ok [[["h1"], ["h2"], ["r1"], [], ["r2", "r3"]]]
    else .error "open: no such file or directory"
  AustriaBankStringToEntry := fun l _ => [l]
  BundesbankStringToEntry := fun l => [l]
  BelgiumRowToEntry := fun r => r.map (fun c => [c])
  NetherlandsRowToEntry := fun r => r
  LuxembourgRowToEntry := fun r => r
  SwitzerlandRowToEntry := fun r _ => r
  LiechtensteinRowToEntry := fun r _ => r

/-- The operation `out <- parse(l)`. -/
def sendEntry {E α : Type} (parse : α → E) (l : α) : ChanEvent E := .send (.entry (parse l))

/-! ## Lemmas on the Go runtime and on `GetBic` -/

theorem goSlice_ok (s : String) (lo hi : Int) (h : 0 ≤ lo ∧ lo ≤ hi ∧ hi ≤ len s) :
    goSlice s lo hi = .ok (substr s lo.toNat hi.toNat) := by
  unfold goSlice
  rw [if_pos h]

theorem goSlice_error (s : String) (lo hi : Int) (h : ¬ (0 ≤ lo ∧ lo ≤ hi ∧ hi ≤ len s)) :
    goSlice s lo hi = .error .sliceOutOfRange := by
  unfold goSlice
  rw [if_neg h]

/-- The slice of the Commerzbank rule is guarded by the length test, so the
condition always evaluates to a boolean. -/
theorem commerzbankCondition_eq (countryCode : String) (bankData : BankInfo) :
    commerzbankCondition countryCode bankData =
      .ok (decide (countryCode = "DE" ∧ 6 < len bankData.Bankcode ∧
        substr bankData.Bankcode 3 6 = "400")) := by
  unfold commerzbankCondition
  by_cases h1 : countryCode = "DE"
  · by_cases h2 : 6 < len bankData.Bankcode
    · have hs : goSlice bankData.Bankcode 3 6 = .ok (substr bankData.Bankcode 3 6) := by
        have := goSlice_ok bankData.Bankcode 3 6 ⟨by norm_num, by norm_num, le_of_lt h2⟩
        simpa using this
      simp [h1, h2, hs]
    · simp [h1, h2]
  · simp [h1]

theorem GetBic_reaches_lookup (table : CountryCodeLengthTable) (iban : Iban)
    (r : ValidationResult) (repo : BankDataRepository) (length : Int)
    (htab : table iban.countryCode = some length) (h0 : 0 ≤ length)
    (hb : length ≤ len iban.bban) :
    GetBic table iban r repo = afterLookup iban r repo (substr iban.bban 0 length.toNat) := by
  have hs : goSlice iban.bban 0 length = .ok (substr iban.bban 0 length.toNat) := by
    simpa using goSlice_ok iban.bban 0 length ⟨le_refl 0, h0, hb⟩
  unfold GetBic afterLookup
  simp only [htab, not_lt.mpr hb, if_false, hs, GetBankInformationByCountryAndBankCodeFromDb]
  rcases hf : repo.Find iban.countryCode (substr iban.bban 0 length.toNat) with ⟨d, err⟩
  cases err with
  | some msg => simp
  | none =>
    cases d with
    | none => simp
    | some e =>
      simp only [commerzbankCondition_eq]
      by_cases hc : iban.countryCode = "DE" ∧ 6 < len e.Bankcode ∧ substr e.Bankcode 3 6 = "400"
      · simp [hc]
      · simp [hc]

theorem GetBic_unknown_country (table : CountryCodeLengthTable) (iban : Iban)
    (r : ValidationResult) (repo : BankDataRepository)
    (htab : table iban.countryCode = none) :
    GetBic table iban r repo =
      { calls := []
        result := .ok { Valid := r.Valid
                        Messages := r.Messages ++ ["Cannot get BIC. No information available."]
                        BankData := r.BankData } } := by
  unfold GetBic
  simp [htab]

theorem GetBic_short_bban (table : CountryCodeLengthTable) (iban : Iban)
    (r : ValidationResult) (repo : BankDataRepository) (length : Int)
    (htab : table iban.countryCode = some length) (hb : len iban.bban < length) :
    GetBic table iban r repo =
      { calls := []
        result := .ok { Valid := r.Valid
                        Messages := r.Messages ++ ["Cannot get BIC for BBAN " ++ iban.bban]
                        BankData := r.BankData } } := by
  unfold GetBic
  simp [htab, hb]

theorem afterLookup_calls (iban : Iban) (r : ValidationResult) (repo : BankDataRepository)
    (bankCode : String) :
    (afterLookup iban r repo bankCode).calls = [(iban.countryCode, bankCode)] := rfl

theorem afterLookup_found (iban : Iban) (r : ValidationResult) (repo : BankDataRepository)
    (bankCode : String) (e : BankInfo)
    (herr : (repo.Find iban.countryCode bankCode).2 = none)
    (hdata : (repo.Find iban.countryCode bankCode).1 = some e) :
    (afterLookup iban r repo bankCode).result =
      .ok { Valid := r.Valid
            Messages := r.Messages
            BankData :=
              if iban.countryCode = "DE" ∧ 6 < len e.Bankcode ∧ substr e.Bankcode 3 6 = "400"
              then { e with Bic := "COBADEFFXXX" } else e } := by
  unfold afterLookup
  simp only [herr, hdata]

theorem afterLookup_not_found (iban : Iban) (r : ValidationResult) (repo : BankDataRepository)
    (bankCode : String)
    (herr : (repo.Find iban.countryCode bankCode).2 = none)
    (hdata : (repo.Find iban.countryCode bankCode).1 = none) :
    (afterLookup iban r repo bankCode).result =
      .ok { Valid := r.Valid
            Messages := r.Messages ++ ["No BIC found for bank code: " ++ bankCode]
            BankData := r.BankData } := by
  unfold afterLookup
  simp only [herr, hdata]

theorem afterLookup_failed (iban : Iban) (r : ValidationResult) (repo : BankDataRepository)
    (bankCode : String)
    (herr : (repo.Find iban.countryCode bankCode).2 ≠ none) :
    (afterLookup iban r repo bankCode).result =
      .error (.message "Failed to load bank info from db.") := by
  unfold afterLookup
  cases h : (repo.Find iban.countryCode bankCode).2 with
  | none => exact absurd h herr
  | some msg => rfl

/-! ## Ingestion: the loops of `ReadFileToEntries` -/

theorem len_eq_zero_iff (l : String) : len l = 0 ↔ l = "" := by
  unfold len
  constructor
  · intro h
    have h1 : l.data.length = 0 := by exact_mod_cast h
    have h2 : l.data = [] := List.length_eq_zero.mp h1
    cases l
    simp_all
  · intro h
    rw [h]
    rfl

theorem bundesbankLoop_all {E : Type} (parse : String → E) (ls : List String)
    (h : ∀ l ∈ ls, l ≠ "") :
    bundesbankLoop parse ls = { events := ls.map (sendEntry parse), exit := .next } := by
  induction ls with
  | nil => rfl
  | cons l ls ih =>
    have hl : ¬ len l = 0 := fun h0 => h l (List.mem_cons_self _ _) ((len_eq_zero_iff l).mp h0)
    have ih1 := ih (fun x hx => h x (List.mem_cons_of_mem _ hx))
    unfold bundesbankLoop
    simp only [if_neg hl, ih1, List.map_cons, sendEntry]

theorem bundesbankLoop_blank {E : Type} (parse : String → E) (pre post : List String)
    (h : ∀ l ∈ pre, l ≠ "") :
    bundesbankLoop parse (pre ++ "" :: post) =
      { events := pre.map (sendEntry parse) ++ [.send .absent], exit := .ret } := by
  induction pre with
  | nil =>
    have h0 : len "" = 0 := rfl
    simp only [List.nil_append, List.map_nil]
    unfold bundesbankLoop
    simp only [if_pos h0]
  | cons l ls ih =>
    have hl : ¬ len l = 0 := fun h0 => h l (List.mem_cons_self _ _) ((len_eq_zero_iff l).mp h0)
    have ih1 := ih (fun x hx => h x (List.mem_cons_of_mem _ hx))
    simp only [List.cons_append]
    unfold bundesbankLoop
    simp only [if_neg hl, ih1, List.map_cons, sendEntry, List.cons_append]

/-- Once the counter has reached six, the Austrian loop is the Bundesbank loop. -/
theorem austriaLoop_past_header {E : Type} (parse : String → E) (ls : List String) :
    ∀ num : Int, 6 ≤ num → austriaLoop parse num ls = bundesbankLoop parse ls := by
  induction ls with
  | nil =>
    intro num _
    rfl
  | cons l ls ih =>
    intro num hnum
    have h7 : ¬ num + 1 < 7 := by omega
    unfold austriaLoop bundesbankLoop
    simp only [if_neg h7, ih (num + 1) (by omega)]

/-- Entered with the counter at `num`, the Austrian loop discards `6 - num`
lines without looking at them. -/
theorem austriaLoop_header {E : Type} (parse : String → E) (k : Nat) :
    ∀ (num : Int) (ls : List String), num + k = 6 →
      austriaLoop parse num ls = bundesbankLoop parse (ls.drop k) := by
  induction k with
  | zero =>
    intro num ls h
    simpa using austriaLoop_past_header parse ls num (by omega)
  | succ k ih =>
    intro num ls h
    cases ls with
    | nil => rfl
    | cons l ls =>
      have h7 : num + 1 < 7 := by omega
      unfold austriaLoop
      simp only [if_pos h7, List.drop_succ_cons]
      exact ih (num + 1) ls (by omega)

theorem rangeRows_rowBody {E : Type} (parse : List String → E) (rows : List (List String)) :
    rangeRows (rowBody parse) rows = rows.map (sendEntry parse) := by
  induction rows with
  | nil => rfl
  | cons r rs ih =>
    unfold rangeRows
    simp only [ih, rowBody, sendEntry, List.map_cons, List.singleton_append]

theorem rangeRows_belgiumBody {E : Type} (parse : List String → List E)
    (rows : List (List String)) :
    rangeRows (belgiumBody parse) rows =
      ((rows.map parse).filter (fun es => decide (0 < es.length))).map
        (fun es => ChanEvent.send (.entries es)) := by
  induction rows with
  | nil => rfl
  | cons r rs ih =>
    unfold rangeRows
    by_cases h : 0 < (parse r).length
    · simp [ih, belgiumBody, h]
    · simp [ih, belgiumBody, h]

theorem sheetLoop_ok {E : Type} (rows : List (List String)) (rest : List (List (List String)))
    (skip : Nat) (body : List String → List (ChanEvent E)) (h : skip ≤ rows.length) :
    sheetLoop (rows :: rest) skip body =
      { events := rangeRows body (rows.drop skip), exit := .next } := by
  unfold sheetLoop
  simp only [if_neg (not_lt.mpr h)]

theorem closes_append {E : Type} (xs ys : List (ChanEvent E)) :
    closes (xs ++ ys) = closes xs + closes ys := by
  induction xs with
  | nil => simp [closes]
  | cons x xs ih =>
    cases x with
    | send v => simp [closes, ih]
    | close => simp [closes, ih]; omega

theorem closes_bundesbankLoop {E : Type} (parse : String → E) (ls : List String) :
    closes (bundesbankLoop parse ls).events = 0 := by
  induction ls with
  | nil => rfl
  | cons l ls ih =>
    unfold bundesbankLoop
    by_cases h : len l = 0
    · simp only [if_pos h]
      rfl
    · simp only [if_neg h, closes]
      exact ih

theorem closes_rangeRows {E : Type} (body : List String → List (ChanEvent E))
    (hbody : ∀ r, closes (body r) = 0) (rows : List (List String)) :
    closes (rangeRows body rows) = 0 := by
  induction rows with
  | nil => rfl
  | cons r rs ih =>
    unfold rangeRows
    rw [closes_append, hbody r, ih]

theorem closes_sheetLoop {E : Type} (file : List (List (List String))) (skip : Nat)
    (body : List String → List (ChanEvent E)) (hbody : ∀ r, closes (body r) = 0) :
    closes (sheetLoop file skip body).events = 0 := by
  unfold sheetLoop
  cases file with
  | nil => rfl
  | cons rows rest =>
    by_cases h : rows.length < skip
    · simp only [if_pos h]
      rfl
    · simp only [if_neg h]
      exact closes_rangeRows body hbody _

theorem closes_rowBody {E : Type} (parse : List String → E) (r : List String) :
    closes (rowBody parse r) = 0 := rfl

theorem closes_belgiumBody {E : Type} (parse : List String → List E) (r : List String) :
    closes (belgiumBody parse r) = 0 := by
  unfold belgiumBody
  by_cases h : 0 < (parse r).length
  · simp only [if_pos h]
    rfl
  · simp only [if_neg h]
    rfl

/-- The Austrian branch after a non-empty first line: seven lines are gone
before the first one is looked at. -/
theorem switchBody_austria {E : Type} (env : Env E) (path : String)
    (h : (env.readLines path).headD "" ≠ "") :
    switchBody env path .AustriaBankFileEntry =
      bundesbankLoop (fun l => env.AustriaBankStringToEntry l env.table)
        ((env.readLines path).drop 7) := by
  unfold switchBody
  simp only [if_neg h]
  rw [austriaLoop_header _ 6 0 _ (by norm_num)]
  cases env.readLines path with
  | nil => rfl
  | cons l ls => rfl

theorem switchBody_austria_blank {E : Type} (env : Env E) (path : String)
    (h : (env.readLines path).headD "" = "") :
    switchBody env path .AustriaBankFileEntry = { events := [.send .absent], exit := .ret } := by
  unfold switchBody
  simp only [if_pos h]

/-- The switch never closes `out`. -/
theorem closes_switchBody {E : Type} (env : Env E) (path : String) (t : FileEntryType) :
    closes (switchBody env path t).events = 0 := by
  cases t with
  | other => rfl
  | AustriaBankFileEntry =>
    by_cases h : (env.readLines path).headD "" = ""
    · rw [switchBody_austria_blank env path h]
      rfl
    · rw [switchBody_austria env path h]
      exact closes_bundesbankLoop _ _
  | BundesbankFileEntry => exact closes_bundesbankLoop _ _
  | BelgiumFileEntry =>
    unfold switchBody
    cases env.FileToSlice path with
    | error err => rfl
    | ok file => exact closes_sheetLoop file 2 _ (closes_belgiumBody _)
  | NetherlandsFileEntry =>
    unfold switchBody
    cases env.FileToSlice path with
    | error err => rfl
    | ok file => exact closes_sheetLoop file 2 _ (closes_rowBody _)
  | LuxembourgFileEntry =>
    unfold switchBody
    cases env.FileToSlice path with
    | error err => rfl
    | ok file => exact closes_sheetLoop file 2 _ (closes_rowBody _)
  | SwitzerlandFileEntry =>
    unfold switchBody
    cases env.FileToSlice path with
    | error err => rfl
    | ok file => exact closes_sheetLoop file 2 _ (closes_rowBody _)
  | LiechtensteinFileEntry =>
    unfold switchBody
    cases env.FileToSlice path with
    | error err => rfl
    | ok file => exact closes_sheetLoop file 1 _ (closes_rowBody _)

theorem ReadFileToEntries_of_next {E : Type} (env : Env E) (path : String) (t : FileEntryType)
    (evs : List (ChanEvent E)) (h : switchBody env path t = { events := evs, exit := .next }) :
    ReadFileToEntries env path t = { events := evs ++ [.close], exit := .ret } := by
  unfold ReadFileToEntries
  simp only [h]

theorem ReadFileToEntries_of_ret {E : Type} (env : Env E) (path : String) (t : FileEntryType)
    (evs : List (ChanEvent E)) (h : switchBody env path t = { events := evs, exit := .ret }) :
    ReadFileToEntries env path t = { events := evs, exit := .ret } := by
  unfold ReadFileToEntries
  simp only [h]

theorem ReadFileToEntries_of_fatal {E : Type} (env : Env E) (path : String) (t : FileEntryType)
    (evs : List (ChanEvent E)) (msg : String)
    (h : switchBody env path t = { events := evs, exit := .fatal msg }) :
    ReadFileToEntries env path t = { events := evs, exit := .fatal msg } := by
  unfold ReadFileToEntries
  simp only [h]

theorem switchBody_sheet {E : Type} (env : Env E) (path : String)
    (rows : List (List String)) (rest : List (List (List String)))
    (hfile : env.FileToSlice path = .ok (rows :: rest)) :
    (2 ≤ rows.length →
      switchBody env path .BelgiumFileEntry =
        { events := rangeRows (belgiumBody env.BelgiumRowToEntry) (rows.drop 2), exit := .next } ∧
      switchBody env path .NetherlandsFileEntry =
        { events := rangeRows (rowBody env.NetherlandsRowToEntry) (rows.drop 2), exit := .next } ∧
      switchBody env path .LuxembourgFileEntry =
        { events := rangeRows (rowBody env.LuxembourgRowToEntry) (rows.drop 2), exit := .next } ∧
      switchBody env path .SwitzerlandFileEntry =
        { events := rangeRows (rowBody (fun r => env.SwitzerlandRowToEntry r env.table))
            (rows.drop 2), exit := .next }) ∧
    (1 ≤ rows.length →
      switchBody env path .LiechtensteinFileEntry =
        { events := rangeRows (rowBody (fun r => env.LiechtensteinRowToEntry r env.table))
            (rows.drop 1), exit := .next }) := by
  constructor
  · intro h
    refine ⟨?_, ?_, ?_, ?_⟩ <;>
    · unfold switchBody
      simp only [hfile]
      exact sheetLoop_ok rows rest 2 _ h
  · intro h
    unfold switchBody
    simp only [hfile]
    exact sheetLoop_ok rows rest 1 _ h

/-! ## BIC resolution: the exits of `GetBic` -/

/-- C1: on the success path (country in the table with a non-negative length,
BBAN at least that long, `Find` returns an entry `e` and no error) the result
keeps `Valid` and `Messages` and its `BankData` is `e` with `Bic` replaced by
`"COBADEFFXXX"` when the country is `DE`, the bank code of `e` is longer than 6
and its characters 3 to 5 are `"400"`, and is `e` itself otherwise; a German
entry with bank code `"12040000"` gets `"COBADEFFXXX"` whatever was stored. -/
theorem GetBic_success (table : CountryCodeLengthTable) (iban : Iban)
    (r : ValidationResult) (repo : BankDataRepository) (length : Int) (e : BankInfo)
    (htab : table iban.countryCode = some length) (h0 : 0 ≤ length)
    (hb : length ≤ len iban.bban)
    (hfind : repo.Find iban.countryCode (substr iban.bban 0 length.toNat) = (some e, none)) :
    (GetBic table iban r repo).result =
      .ok { Valid := r.Valid
            Messages := r.Messages
            BankData :=
              if iban.countryCode = "DE" ∧ 6 < len e.Bankcode ∧ substr e.Bankcode 3 6 = "400"
              then { e with Bic := "COBADEFFXXX" } else e } ∧
    (iban.countryCode = "DE" → e.Bankcode = "12040000" →
      (GetBic table iban r repo).result =
        .ok { Valid := r.Valid
              Messages := r.Messages
              BankData := { e with Bic := "COBADEFFXXX" } }) := by
  have key := afterLookup_found iban r repo (substr iban.bban 0 length.toNat) e
    (by rw [hfind]) (by rw [hfind])
  rw [GetBic_reaches_lookup table iban r repo length htab h0 hb]
  refine ⟨key, ?_⟩
  intro hde hcode
  rw [key]
  have hc : iban.countryCode = "DE" ∧ 6 < len e.Bankcode ∧ substr e.Bankcode 3 6 = "400" := by
    rw [hcode]
    exact ⟨hde, by decide, by decide⟩
  rw [if_pos hc]

/-- The Commerzbank test: `DE12120400000052065002` against a repository that
stores the BIC `COBADEBBXXX` under `("DE", "12040000")`. -/
theorem GetBic_success_witness :
    sampleTable ibanCommerzbank.countryCode = some 8 ∧
    (GetBic sampleTable ibanCommerzbank freshResult sampleRepo).result =
      .ok { Valid := true
            Messages := []
            BankData := ⟨"12040000", "Commerzbank", "10891", "Berlin", "COBADEFFXXX", "DE"⟩ } :=
  ⟨by decide,
   (GetBic_success sampleTable ibanCommerzbank freshResult sampleRepo 8
      ⟨"12040000", "Commerzbank", "10891", "Berlin", "COBADEBBXXX", "DE"⟩
      (by decide) (by decide) (by decide) (by decide)).1.trans (by decide)⟩

/-- C2: the lookup passes its arguments to `Find` unchanged: it makes the single
call `Find(countryCode, bankCode)` and, when that call reports no error,
returns the entry-or-nil it returned; `GetBic` queries only with the country
code of the IBAN and the first `length` characters of the BBAN; so `"001"`
finds the entry stored under `("BE", "001")` when nothing is stored under
`("BE", "1")`. -/
theorem lookup_is_exact (countryCode bankCode : String) (repo : BankDataRepository)
    (herr : (repo.Find countryCode bankCode).2 = none) :
    (GetBankInformationByCountryAndBankCodeFromDb countryCode bankCode repo).result =
      .ok (repo.Find countryCode bankCode).1 ∧
    (GetBankInformationByCountryAndBankCodeFromDb countryCode bankCode repo).calls =
      [(countryCode, bankCode)] ∧
    (∀ (table : CountryCodeLengthTable) (iban : Iban) (r : ValidationResult)
        (repo : BankDataRepository),
      (GetBic table iban r repo).calls =
        match table iban.countryCode with
        | none => []
        | some length =>
          if 0 ≤ length ∧ length ≤ len iban.bban
          then [(iban.countryCode, substr iban.bban 0 length.toNat)] else []) ∧
    (∀ (repo : BankDataRepository) (e : BankInfo),
      repo.Find "BE" "001" = (some e, none) → repo.Find "BE" "1" = (none, none) →
      (GetBankInformationByCountryAndBankCodeFromDb "BE" "001" repo).result = .ok (some e)) := by
  refine ⟨?_, rfl, ?_, ?_⟩
  · unfold GetBankInformationByCountryAndBankCodeFromDb
    simp only [herr]
  · intro table iban r repo
    cases htab : table iban.countryCode with
    | none => rw [GetBic_unknown_country table iban r repo htab]
    | some length =>
      by_cases hb : len iban.bban < length
      · rw [GetBic_short_bban table iban r repo length htab hb]
        have : ¬ (0 ≤ length ∧ length ≤ len iban.bban) := fun h => absurd hb (not_lt.mpr h.2)
        simp only [if_neg this]
      · by_cases h0 : 0 ≤ length
        · rw [GetBic_reaches_lookup table iban r repo length htab h0 (not_lt.mp hb)]
          simp only [if_pos (And.intro h0 (not_lt.mp hb)), afterLookup_calls]
        · have hs : goSlice iban.bban 0 length = .error .sliceOutOfRange :=
            goSlice_error iban.bban 0 length (fun h => h0 h.2.1)
          have : ¬ (0 ≤ length ∧ length ≤ len iban.bban) := fun h => h0 h.1
          unfold GetBic
          simp only [htab, if_neg hb, hs, if_neg this]
  · intro repo e hfind _
    unfold GetBankInformationByCountryAndBankCodeFromDb
    simp only [hfind]

/-- The Belgian leading-zero test on the sample repository. -/
theorem lookup_is_exact_witness :
    (sampleRepo.Find "BE" "001").2 = none ∧
    (GetBankInformationByCountryAndBankCodeFromDb "BE" "001" sampleRepo).result =
      .ok (some ⟨"001", "bpost bank", "1000", "Brussels", "BPOTBEB1", "BE"⟩) ∧
    (GetBic sampleTable ⟨"BE", "001123456789"⟩ freshResult sampleRepo).calls = [("BE", "001")] :=
  ⟨by decide,
   ((lookup_is_exact "BE" "001" sampleRepo (by decide)).2.2.2 sampleRepo
      ⟨"001", "bpost bank", "1000", "Brussels", "BPOTBEB1", "BE"⟩ (by decide) (by decide)),
   by decide⟩

/-- C3: on the not-found exit (country in the table with a non-negative length,
BBAN at least that long, `Find` returns neither an entry nor an error) the
result is the given one with the single message
`"No BIC found for bank code: " ++ bban[0:length]` appended; `BankData` and
`Valid` are unchanged. -/
theorem GetBic_not_found (table : CountryCodeLengthTable) (iban : Iban)
    (r : ValidationResult) (repo : BankDataRepository) (length : Int)
    (htab : table iban.countryCode = some length) (h0 : 0 ≤ length)
    (hb : length ≤ len iban.bban)
    (hfind : repo.Find iban.countryCode (substr iban.bban 0 length.toNat) = (none, none)) :
    (GetBic table iban r repo).result =
      .ok { Valid := r.Valid
            Messages := r.Messages ++
              ["No BIC found for bank code: " ++ substr iban.bban 0 length.toNat]
            BankData := r.BankData } := by
  rw [GetBic_reaches_lookup table iban r repo length htab h0 hb]
  exact afterLookup_not_found iban r repo _ (by rw [hfind]) (by rw [hfind])

/-- A German bank code that the sample repository does not hold. -/
theorem GetBic_not_found_witness :
    sampleTable "DE" = some 8 ∧
    (GetBic sampleTable ⟨"DE", "123456780052065002"⟩
        ⟨true, ["checked"], ⟨"", "", "", "", "", ""⟩⟩ sampleRepo).result =
      .ok { Valid := true
            Messages := ["checked", "No BIC found for bank code: 12345678"]
            BankData := ⟨"", "", "", "", "", ""⟩ } :=
  ⟨by decide,
   (GetBic_not_found sampleTable ⟨"DE", "123456780052065002"⟩
      ⟨true, ["checked"], ⟨"", "", "", "", "", ""⟩⟩ sampleRepo 8
      (by decide) (by decide) (by decide) (by decide)).trans (by decide)⟩

/-- C4: when the country is not in the table, or is in the table with a length
the BBAN does not reach, `GetBic` returns the given result with exactly one
message appended (`"Cannot get BIC. No information available."`, respectively
`"Cannot get BIC for BBAN " ++ bban`), `BankData` and `Valid` unchanged, and
makes no `Find` call, whatever the repository. -/
theorem GetBic_exits_before_lookup (table : CountryCodeLengthTable) (iban : Iban)
    (r : ValidationResult) (repo : BankDataRepository) :
    (table iban.countryCode = none →
      (GetBic table iban r repo).result =
        .ok { Valid := r.Valid
              Messages := r.Messages ++ ["Cannot get BIC. No information available."]
              BankData := r.BankData } ∧
      (GetBic table iban r repo).calls = []) ∧
    (∀ length : Int, table iban.countryCode = some length → len iban.bban < length →
      (GetBic table iban r repo).result =
        .ok { Valid := r.Valid
              Messages := r.Messages ++ ["Cannot get BIC for BBAN " ++ iban.bban]
              BankData := r.BankData } ∧
      (GetBic table iban r repo).calls = []) := by
  constructor
  · intro htab
    rw [GetBic_unknown_country table iban r repo htab]
    exact ⟨rfl, rfl⟩
  · intro length htab hb
    rw [GetBic_short_bban table iban r repo length htab hb]
    exact ⟨rfl, rfl⟩

/-- Both early exits against a repository whose every lookup errors. -/
theorem GetBic_exits_before_lookup_witness :
    ((GetBic sampleTable ⟨"XX", "123"⟩ freshResult brokenRepo).result =
        .ok { Valid := true
              Messages := ["Cannot get BIC. No information available."]
              BankData := ⟨"", "", "", "", "", ""⟩ } ∧
      (GetBic sampleTable ⟨"XX", "123"⟩ freshResult brokenRepo).calls = []) ∧
    ((GetBic sampleTable ⟨"DE", "1204"⟩ freshResult brokenRepo).result =
        .ok { Valid := true
              Messages := ["Cannot get BIC for BBAN 1204"]
              BankData := ⟨"", "", "", "", "", ""⟩ } ∧
      (GetBic sampleTable ⟨"DE", "1204"⟩ freshResult brokenRepo).calls = []) :=
  ⟨(GetBic_exits_before_lookup sampleTable ⟨"XX", "123"⟩ freshResult brokenRepo).1 (by decide),
   (GetBic_exits_before_lookup sampleTable ⟨"DE", "1204"⟩ freshResult brokenRepo).2 8
      (by decide) (by decide)⟩

/-- The sample table maps no country to a negative length. -/
theorem sampleTable_nonneg : ∀ (cc : String) (l : Int), sampleTable cc = some l → 0 ≤ l := by
  intro cc l h
  unfold sampleTable at h
  split_ifs at h <;> simp at h <;> omega

/-- The sample repository reports no error. -/
theorem sampleRepo_never_errors : ∀ cc bc : String, (sampleRepo.Find cc bc).2 = none := by
  intro cc bc
  unfold sampleRepo
  dsimp only
  split_ifs <;> rfl

/-- C5: over a table of non-negative lengths, `GetBic` fails to return a result
exactly when the country is in the table, the BBAN has at least `length`
characters and `Find(countryCode, bban[0:length])` reports an error; the
failure is never a slice out of range: the extraction `bban[0:length]`
succeeds whenever it is reached (a BBAN of exactly `length` characters
included) and the condition of the Commerzbank rule evaluates for a fetched
bank code of any length. -/
theorem GetBic_fatal_iff (table : CountryCodeLengthTable) (iban : Iban)
    (r : ValidationResult) (repo : BankDataRepository)
    (hnonneg : ∀ (cc : String) (l : Int), table cc = some l → 0 ≤ l) :
    ((∃ p, (GetBic table iban r repo).result = .error p) ↔
      ∃ length, table iban.countryCode = some length ∧ length ≤ len iban.bban ∧
        (repo.Find iban.countryCode (substr iban.bban 0 length.toNat)).2 ≠ none) ∧
    (GetBic table iban r repo).result ≠ .error .sliceOutOfRange ∧
    (∀ length, table iban.countryCode = some length → length ≤ len iban.bban →
      goSlice iban.bban 0 length = .ok (substr iban.bban 0 length.toNat)) ∧
    (∀ (countryCode : String) (e : BankInfo), ∃ b, commerzbankCondition countryCode e = .ok b) := by
  refine ⟨?_, ?_, ?_, fun cc e => ⟨_, commerzbankCondition_eq cc e⟩⟩
  · cases htab : table iban.countryCode with
    | none =>
      rw [GetBic_unknown_country table iban r repo htab]
      constructor
      · rintro ⟨p, hp⟩
        cases hp
      · rintro ⟨length, hl, _⟩
        cases hl
    | some length =>
      have h0 := hnonneg _ _ htab
      by_cases hb : len iban.bban < length
      · rw [GetBic_short_bban table iban r repo length htab hb]
        constructor
        · rintro ⟨p, hp⟩
          cases hp
        · rintro ⟨length', hl, hle, _⟩
          cases hl
          exact absurd hb (not_lt.mpr hle)
      · rw [GetBic_reaches_lookup table iban r repo length htab h0 (not_lt.mp hb)]
        by_cases herr : (repo.Find iban.countryCode (substr iban.bban 0 length.toNat)).2 = none
        · constructor
          · rintro ⟨p, hp⟩
            cases hdata : (repo.Find iban.countryCode (substr iban.bban 0 length.toNat)).1 with
            | none =>
              rw [afterLookup_not_found iban r repo _ herr hdata] at hp
              cases hp
            | some e =>
              rw [afterLookup_found iban r repo _ e herr hdata] at hp
              cases hp
          · rintro ⟨length', hl, _, hne⟩
            cases hl
            exact absurd herr hne
        · constructor
          · intro _
            exact ⟨length, rfl, not_lt.mp hb, herr⟩
          · intro _
            exact ⟨_, afterLookup_failed iban r repo _ herr⟩
  · cases htab : table iban.countryCode with
    | none =>
      rw [GetBic_unknown_country table iban r repo htab]
      intro h
      cases h
    | some length =>
      have h0 := hnonneg _ _ htab
      by_cases hb : len iban.bban < length
      · rw [GetBic_short_bban table iban r repo length htab hb]
        intro h
        cases h
      · rw [GetBic_reaches_lookup table iban r repo length htab h0 (not_lt.mp hb)]
        by_cases herr : (repo.Find iban.countryCode (substr iban.bban 0 length.toNat)).2 = none
        · cases hdata : (repo.Find iban.countryCode (substr iban.bban 0 length.toNat)).1 with
          | none =>
            rw [afterLookup_not_found iban r repo _ herr hdata]
            intro h
            cases h
          | some e =>
            rw [afterLookup_found iban r repo _ e herr hdata]
            intro h
            cases h
        · rw [afterLookup_failed iban r repo _ herr]
          intro h
          cases h
  · intro length htab hb
    simpa using goSlice_ok iban.bban 0 length ⟨le_refl 0, hnonneg _ _ htab, hb⟩

/-- A BBAN of exactly eight characters against a repository that errors: the
lookup is reached and the resolution is fatal. -/
theorem GetBic_fatal_iff_witness :
    (∃ p, (GetBic sampleTable ⟨"DE", "12040000"⟩ freshResult brokenRepo).result = .error p) ∧
    (GetBic sampleTable ⟨"DE", "12040000"⟩ freshResult brokenRepo).result ≠
      .error .sliceOutOfRange ∧
    goSlice "12040000" 0 8 = .ok "12040000" :=
  ⟨(GetBic_fatal_iff sampleTable ⟨"DE", "12040000"⟩ freshResult brokenRepo
      sampleTable_nonneg).1.mpr ⟨8, by decide, by decide, by decide⟩,
   (GetBic_fatal_iff sampleTable ⟨"DE", "12040000"⟩ freshResult brokenRepo
      sampleTable_nonneg).2.1,
   by decide⟩

/-- C9 as stated fails: for a country that is not in the table the first
resolution appends the diagnostic and the second appends it again, so the
messages after two resolutions differ from the messages after one. -/
theorem repeated_diagnostic_counterexample :
    (GetBic sampleTable ⟨"XX", "123"⟩ freshResult sampleRepo).result =
      .ok { Valid := true
            Messages := ["Cannot get BIC. No information available."]
            BankData := ⟨"", "", "", "", "", ""⟩ } ∧
    (GetBic sampleTable ⟨"XX", "123"⟩
        { Valid := true
          Messages := ["Cannot get BIC. No information available."]
          BankData := ⟨"", "", "", "", "", ""⟩ } sampleRepo).result =
      .ok { Valid := true
            Messages := ["Cannot get BIC. No information available.",
                         "Cannot get BIC. No information available."]
            BankData := ⟨"", "", "", "", "", ""⟩ } ∧
    ¬ (∀ (table : CountryCodeLengthTable) (iban : Iban) (r r1 r2 : ValidationResult)
        (repo : BankDataRepository),
        (∀ cc bc, (repo.Find cc bc).2 = none) →
        (GetBic table iban r repo).result = .ok r1 →
        (GetBic table iban r1 repo).result = .ok r2 →
        r2.BankData = r1.BankData ∧ r2.Messages = r1.Messages) := by
  refine ⟨by decide, by decide, ?_⟩
  intro h
  have := (h sampleTable ⟨"XX", "123"⟩ freshResult
    { Valid := true
      Messages := ["Cannot get BIC. No information available."]
      BankData := ⟨"", "", "", "", "", ""⟩ }
    { Valid := true
      Messages := ["Cannot get BIC. No information available.",
                   "Cannot get BIC. No information available."]
      BankData := ⟨"", "", "", "", "", ""⟩ }
    sampleRepo sampleRepo_never_errors (by decide) (by decide)).2
  exact absurd this (by decide)

/-- C9, amended: over a table of non-negative lengths and a repository that
never errors, resolving twice returns both times, with the same `BankData` and
`Valid` as resolving once; the second resolution appends to `Messages` exactly
what the first appended, which is nothing when the lookup finds an entry and
one diagnostic otherwise. -/
theorem GetBic_twice (table : CountryCodeLengthTable) (iban : Iban)
    (r : ValidationResult) (repo : BankDataRepository)
    (hnonneg : ∀ (cc : String) (l : Int), table cc = some l → 0 ≤ l)
    (hrepo : ∀ cc bc, (repo.Find cc bc).2 = none) :
    ∃ r1 r2 d,
      (GetBic table iban r repo).result = .ok r1 ∧
      (GetBic table iban r1 repo).result = .ok r2 ∧
      r2.BankData = r1.BankData ∧ r2.Valid = r1.Valid ∧
      r1.Messages = r.Messages ++ d ∧ r2.Messages = r1.Messages ++ d ∧
      d.length ≤ 1 ∧
      (d = [] ↔ ∃ length e, table iban.countryCode = some length ∧
        length ≤ len iban.bban ∧
        (repo.Find iban.countryCode (substr iban.bban 0 length.toNat)).1 = some e) := by
  cases htab : table iban.countryCode with
  | none =>
    refine ⟨⟨r.Valid, r.Messages ++ ["Cannot get BIC. No information available."], r.BankData⟩,
      ⟨r.Valid, (r.Messages ++ ["Cannot get BIC. No information available."]) ++
        ["Cannot get BIC. No information available."], r.BankData⟩,
      ["Cannot get BIC. No information available."], ?_, ?_, rfl, rfl, rfl, rfl, by simp, ?_⟩
    · rw [GetBic_unknown_country table iban r repo htab]
    · rw [GetBic_unknown_country table iban _ repo htab]
    · simp
  | some length =>
    have h0 := hnonneg _ _ htab
    by_cases hb : len iban.bban < length
    · refine ⟨⟨r.Valid, r.Messages ++ ["Cannot get BIC for BBAN " ++ iban.bban], r.BankData⟩,
        ⟨r.Valid, (r.Messages ++ ["Cannot get BIC for BBAN " ++ iban.bban]) ++
          ["Cannot get BIC for BBAN " ++ iban.bban], r.BankData⟩,
        ["Cannot get BIC for BBAN " ++ iban.bban], ?_, ?_, rfl, rfl, rfl, rfl, by simp, ?_⟩
      · rw [GetBic_short_bban table iban r repo length htab hb]
      · rw [GetBic_short_bban table iban _ repo length htab hb]
      · constructor
        · intro h
          cases h
        · rintro ⟨length', e, hl, hle, _⟩
          cases hl
          exact absurd hb (not_lt.mpr hle)
    · have herr := hrepo iban.countryCode (substr iban.bban 0 length.toNat)
      cases hdata : (repo.Find iban.countryCode (substr iban.bban 0 length.toNat)).1 with
      | none =>
        refine ⟨⟨r.Valid, r.Messages ++
            ["No BIC found for bank code: " ++ substr iban.bban 0 length.toNat], r.BankData⟩,
          ⟨r.Valid, (r.Messages ++
            ["No BIC found for bank code: " ++ substr iban.bban 0 length.toNat]) ++
            ["No BIC found for bank code: " ++ substr iban.bban 0 length.toNat], r.BankData⟩,
          ["No BIC found for bank code: " ++ substr iban.bban 0 length.toNat],
          ?_, ?_, rfl, rfl, rfl, rfl, by simp, ?_⟩
        · rw [GetBic_reaches_lookup table iban r repo length htab h0 (not_lt.mp hb),
            afterLookup_not_found iban r repo _ herr hdata]
        · rw [GetBic_reaches_lookup table iban _ repo length htab h0 (not_lt.mp hb),
            afterLookup_not_found iban _ repo _ herr hdata]
        · constructor
          · intro h
            cases h
          · rintro ⟨length', e, hl, _, he⟩
            cases hl
            rw [hdata] at he
            cases he
      | some e =>
        have h1 := afterLookup_found iban r repo _ e herr hdata
        rw [← GetBic_reaches_lookup table iban r repo length htab h0 (not_lt.mp hb)] at h1
        have h2 := afterLookup_found iban
          { Valid := r.Valid
            Messages := r.Messages
            BankData :=
              if iban.countryCode = "DE" ∧ 6 < len e.Bankcode ∧ substr e.Bankcode 3 6 = "400"
              then { e with Bic := "COBADEFFXXX" } else e } repo _ e herr hdata
        rw [← GetBic_reaches_lookup table iban _ repo length htab h0 (not_lt.mp hb)] at h2
        refine ⟨_, _, [], h1, h2, rfl, rfl, (List.append_nil _).symm,
          (List.append_nil _).symm, by simp, ?_⟩
        constructor
        · intro _
          exact ⟨length, e, rfl, not_lt.mp hb, hdata⟩
        · intro _
          rfl

/-- Resolving the Commerzbank IBAN twice against the sample repository. -/
theorem GetBic_twice_witness :
    ∃ r1 r2 d,
      (GetBic sampleTable ibanCommerzbank freshResult sampleRepo).result = .ok r1 ∧
      (GetBic sampleTable ibanCommerzbank r1 sampleRepo).result = .ok r2 ∧
      r2.BankData = r1.BankData ∧ r2.Valid = r1.Valid ∧
      r1.Messages = freshResult.Messages ++ d ∧ r2.Messages = r1.Messages ++ d ∧
      d.length ≤ 1 ∧
      (d = [] ↔ ∃ length e, sampleTable ibanCommerzbank.countryCode = some length ∧
        length ≤ len ibanCommerzbank.bban ∧
        (sampleRepo.Find ibanCommerzbank.countryCode
          (substr ibanCommerzbank.bban 0 length.toNat)).1 = some e) :=
  GetBic_twice sampleTable ibanCommerzbank freshResult sampleRepo sampleTable_nonneg
    sampleRepo_never_errors

/-! ## Ingestion: the stream `ReadFileToEntries` produces -/

/-- C6 as stated fails: for the Belgian format and a workbook that cannot be
read, `log.Fatalf` halts the process; nothing is sent on `out` and `out` is not
closed, so the events do not end with a close. -/
theorem ReadFileToEntries_fatal_without_close :
    ReadFileToEntries sampleEnv "missing.xlsx" .BelgiumFileEntry =
      { events := []
        exit := .fatal "Couldn't read belgium file, open: no such file or directory" } ∧
    closes (ReadFileToEntries sampleEnv "missing.xlsx" .BelgiumFileEntry).events = 0 ∧
    ¬ (∀ (env : Env (List String)) (path : String) (t : FileEntryType),
        (ReadFileToEntries env path t).events.getLast? = some .close ∧
        closes (ReadFileToEntries env path t).events = 1) := by
  refine ⟨by decide, by decide, ?_⟩
  intro h
  exact absurd (h sampleEnv "missing.xlsx" .BelgiumFileEntry).2 (by decide)

/-- C6, amended: `ReadFileToEntries` returns with exactly one `close(out)`, as
its last operation on `out`, whenever control reaches the end of the type
switch: for an unrecognised marker, for a Bundesbank file without an empty
line, for an Austrian file with a non-empty first line and no empty line after
the seventh, and for a readable workbook whose first sheet has at least the
skipped number of rows (2, for Liechtenstein 1).  For the Belgian, Dutch,
Luxembourg and Swiss formats an unreadable workbook halts the process with
nothing sent and nothing closed. -/
theorem ReadFileToEntries_closes_once {E : Type} (env : Env E) (path : String)
    (t : FileEntryType) :
    ((t = .other ∨
      (t = .BundesbankFileEntry ∧ ∀ l ∈ env.readLines path, l ≠ "") ∨
      (t = .AustriaBankFileEntry ∧ (env.readLines path).headD "" ≠ "" ∧
        ∀ l ∈ (env.readLines path).drop 7, l ≠ "") ∨
      (∃ rows rest, env.FileToSlice path = .ok (rows :: rest) ∧
        (((t = .BelgiumFileEntry ∨ t = .NetherlandsFileEntry ∨ t = .LuxembourgFileEntry ∨
            t = .SwitzerlandFileEntry) ∧ 2 ≤ rows.length) ∨
          (t = .LiechtensteinFileEntry ∧ 1 ≤ rows.length)))) →
      (ReadFileToEntries env path t).exit = .ret ∧
      closes (ReadFileToEntries env path t).events = 1 ∧
      (ReadFileToEntries env path t).events.getLast? = some .close) ∧
    (∀ err, (t = .BelgiumFileEntry ∨ t = .NetherlandsFileEntry ∨ t = .LuxembourgFileEntry ∨
          t = .SwitzerlandFileEntry) →
      env.FileToSlice path = .error err →
      (ReadFileToEntries env path t).events = [] ∧
      ∃ msg, (ReadFileToEntries env path t).exit = .fatal msg) := by
  constructor
  · intro h
    have key : ∀ evs, switchBody env path t = { events := evs, exit := .next } →
        (ReadFileToEntries env path t).exit = .ret ∧
        closes (ReadFileToEntries env path t).events = 1 ∧
        (ReadFileToEntries env path t).events.getLast? = some .close := by
      intro evs hsw
      have hc := closes_switchBody env path t
      rw [hsw] at hc
      rw [ReadFileToEntries_of_next env path t evs hsw]
      refine ⟨rfl, ?_, ?_⟩
      · show closes (evs ++ [ChanEvent.close]) = 1
        rw [closes_append]
        have : closes evs = 0 := hc
        rw [this]
        rfl
      · show (evs ++ [ChanEvent.close]).getLast? = some .close
        simp
    rcases h with h | ⟨ht, hl⟩ | ⟨ht, hfirst, hl⟩ | ⟨rows, rest, hfile, h⟩
    · subst h
      exact key [] rfl
    · subst ht
      exact key _ (bundesbankLoop_all _ _ hl)
    · subst ht
      have hsw := switchBody_austria env path hfirst
      rw [bundesbankLoop_all _ _ hl] at hsw
      exact key _ hsw
    · have hs := switchBody_sheet env path rows rest hfile
      rcases h with ⟨ht, hlen⟩ | ⟨ht, hlen⟩
      · rcases ht with ht | ht | ht | ht
        · subst ht
          exact key _ (hs.1 hlen).1
        · subst ht
          exact key _ (hs.1 hlen).2.1
        · subst ht
          exact key _ (hs.1 hlen).2.2.1
        · subst ht
          exact key _ (hs.1 hlen).2.2.2
      · subst ht
        exact key _ (hs.2 hlen)
  · intro err ht hfile
    have hsw : ∃ msg, switchBody env path t = { events := [], exit := .fatal msg } := by
      rcases ht with ht | ht | ht | ht <;>
      · subst ht
        unfold switchBody
        simp only [hfile]
        exact ⟨_, rfl⟩
    obtain ⟨msg, hsw⟩ := hsw
    rw [ReadFileToEntries_of_fatal env path t [] msg hsw]
    exact ⟨rfl, msg, rfl⟩

/-- The Belgian format on a readable workbook of five rows, and on a missing
workbook. -/
theorem ReadFileToEntries_closes_once_witness :
    ((ReadFileToEntries sampleEnv "book.xlsx" .BelgiumFileEntry).exit = .ret ∧
      closes (ReadFileToEntries sampleEnv "book.xlsx" .BelgiumFileEntry).events = 1 ∧
      (ReadFileToEntries sampleEnv "book.xlsx" .BelgiumFileEntry).events.getLast? =
        some .close) ∧
    ((ReadFileToEntries sampleEnv "missing.xlsx" .BelgiumFileEntry).events = [] ∧
      ∃ msg, (ReadFileToEntries sampleEnv "missing.xlsx" .BelgiumFileEntry).exit = .fatal msg) :=
  ⟨(ReadFileToEntries_closes_once sampleEnv "book.xlsx" .BelgiumFileEntry).1
      (Or.inr (Or.inr (Or.inr
        ⟨[["h1"], ["h2"], ["r1"], [], ["r2", "r3"]], [], by decide,
          Or.inl ⟨Or.inl rfl, by decide⟩⟩))),
   (ReadFileToEntries_closes_once sampleEnv "missing.xlsx" .BelgiumFileEntry).2
      "open: no such file or directory" (Or.inl rfl) (by decide)⟩

/-- What the code does at an empty line.  For the Bundesbank format, lines that
reach a first empty line give the parsed entries of the lines before it, in
order, then one `nil`, and nothing else.  For the Austrian format, an empty
first line or no line at all gives one `nil` and nothing else; the six lines
that follow a non-empty first line are not looked at, and an empty line after
them gives the entries of the lines between, then one `nil`, and nothing else.
When the reader delivers no line or an empty first line, the first value a
consumer receives is `nil` for both formats. -/
theorem sentinel_at_empty_line {E : Type} (env : Env E) (path : String) :
    (∀ pre post, env.readLines path = pre ++ "" :: post → (∀ l ∈ pre, l ≠ "") →
      (ReadFileToEntries env path .BundesbankFileEntry).events =
        pre.map (fun l => ChanEvent.send (.entry (env.BundesbankStringToEntry l))) ++
          [.send .absent]) ∧
    ((env.readLines path).headD "" = "" →
      (ReadFileToEntries env path .AustriaBankFileEntry).events = [.send .absent]) ∧
    (∀ first hdr pre post, env.readLines path = first :: (hdr ++ (pre ++ "" :: post)) →
      first ≠ "" → hdr.length = 6 → (∀ l ∈ pre, l ≠ "") →
      (ReadFileToEntries env path .AustriaBankFileEntry).events =
        pre.map (fun l => ChanEvent.send (.entry (env.AustriaBankStringToEntry l env.table))) ++
          [.send .absent]) ∧
    ((env.readLines path).headD "" = "" →
      firstReceived (ReadFileToEntries env path .AustriaBankFileEntry).events = some .absent ∧
      firstReceived (ReadFileToEntries env path .BundesbankFileEntry).events = some .absent) := by
  refine ⟨?_, ?_, ?_, ?_⟩
  · intro pre post hlines hpre
    have hsw : switchBody env path .BundesbankFileEntry =
        { events := pre.map (sendEntry env.BundesbankStringToEntry) ++ [.send .absent]
          exit := .ret } := by
      unfold switchBody
      rw [hlines]
      exact bundesbankLoop_blank _ pre post hpre
    rw [ReadFileToEntries_of_ret env path _ _ hsw]
    rfl
  · intro h
    rw [ReadFileToEntries_of_ret env path _ _ (switchBody_austria_blank env path h)]
  · intro first hdr pre post hlines hfirst hhdr hpre
    have h1 : (env.readLines path).headD "" ≠ "" := by
      rw [hlines]
      exact hfirst
    have h2 : (env.readLines path).drop 7 = pre ++ "" :: post := by
      rw [hlines]
      show List.drop 6 (hdr ++ (pre ++ "" :: post)) = pre ++ "" :: post
      rw [← hhdr]
      exact List.drop_left _ _
    have hsw := switchBody_austria env path h1
    rw [h2, bundesbankLoop_blank _ pre post hpre] at hsw
    rw [ReadFileToEntries_of_ret env path _ _ hsw]
    rfl
  · intro h
    constructor
    · rw [ReadFileToEntries_of_ret env path _ _ (switchBody_austria_blank env path h)]
      rfl
    · cases hl : env.readLines path with
      | nil =>
        have hsw : switchBody env path .BundesbankFileEntry = { events := [], exit := .next } := by
          unfold switchBody
          rw [hl]
          rfl
        rw [ReadFileToEntries_of_next env path _ _ hsw]
        rfl
      | cons l ls =>
        rw [hl] at h
        have hl0 : l = "" := h
        subst hl0
        have hsw : switchBody env path .BundesbankFileEntry =
            { events := [.send .absent], exit := .ret } := by
          unfold switchBody
          rw [hl]
          exact bundesbankLoop_blank _ [] ls (fun _ hx => absurd hx (List.not_mem_nil _))
        rw [ReadFileToEntries_of_ret env path _ _ hsw]
        rfl

/-- A Bundesbank file with an empty third line, and a missing Austrian file. -/
theorem sentinel_at_empty_line_witness :
    (ReadFileToEntries sampleEnv "data.txt" .BundesbankFileEntry).events =
      [.send (.entry ["a"]), .send (.entry ["b"]), .send .absent] ∧
    (ReadFileToEntries sampleEnv "nowhere.csv" .AustriaBankFileEntry).events =
      [.send .absent] ∧
    firstReceived (ReadFileToEntries sampleEnv "nowhere.txt" .BundesbankFileEntry).events =
      some .absent :=
  ⟨(sentinel_at_empty_line sampleEnv "data.txt").1 ["a", "b"] ["c"] (by decide) (by decide),
   (sentinel_at_empty_line sampleEnv "nowhere.csv").2.1 (by decide),
   ((sentinel_at_empty_line sampleEnv "nowhere.txt").2.2.2 (by decide)).2⟩

/-- C8: for a readable workbook whose first sheet has at least the skipped
number of rows, the operations on `out` are one send per row of the first sheet
after the first 2 rows (Belgium, Netherlands, Luxembourg, Switzerland) or the
first row (Liechtenstein), in row order, each carrying the parser's result for
that row, followed by the close; for Belgium the rows whose parser result is
empty send nothing and every other row sends its list of entries as one
value. -/
theorem spreadsheet_rows_in_order {E : Type} (env : Env E) (path : String)
    (rows : List (List String)) (rest : List (List (List String)))
    (hfile : env.FileToSlice path = .ok (rows :: rest)) :
    (2 ≤ rows.length →
      (ReadFileToEntries env path .BelgiumFileEntry).events =
        (((rows.drop 2).map env.BelgiumRowToEntry).filter (fun es => !es.isEmpty)).map
          (fun es => ChanEvent.send (.entries es)) ++ [.close] ∧
      (ReadFileToEntries env path .NetherlandsFileEntry).events =
        (rows.drop 2).map (fun r => ChanEvent.send (.entry (env.NetherlandsRowToEntry r))) ++
          [.close] ∧
      (ReadFileToEntries env path .LuxembourgFileEntry).events =
        (rows.drop 2).map (fun r => ChanEvent.send (.entry (env.LuxembourgRowToEntry r))) ++
          [.close] ∧
      (ReadFileToEntries env path .SwitzerlandFileEntry).events =
        (rows.drop 2).map
          (fun r => ChanEvent.send (.entry (env.SwitzerlandRowToEntry r env.table))) ++
          [.close]) ∧
    (1 ≤ rows.length →
      (ReadFileToEntries env path .LiechtensteinFileEntry).events =
        (rows.drop 1).map
          (fun r => ChanEvent.send (.entry (env.LiechtensteinRowToEntry r env.table))) ++
          [.close]) := by
  have hs := switchBody_sheet env path rows rest hfile
  have hfilter : ∀ xs : List (List E),
      xs.filter (fun es => decide (0 < es.length)) = xs.filter (fun es => !es.isEmpty) := by
    intro xs
    congr 1
    funext es
    cases es <;> simp
  constructor
  · intro h
    obtain ⟨hbe, hnl, hlu, hch⟩ := hs.1 h
    refine ⟨?_, ?_, ?_, ?_⟩
    · rw [ReadFileToEntries_of_next env path _ _ hbe, rangeRows_belgiumBody, hfilter]
    · rw [ReadFileToEntries_of_next env path _ _ hnl, rangeRows_rowBody]
      rfl
    · rw [ReadFileToEntries_of_next env path _ _ hlu, rangeRows_rowBody]
      rfl
    · rw [ReadFileToEntries_of_next env path _ _ hch, rangeRows_rowBody]
      rfl
  · intro h
    rw [ReadFileToEntries_of_next env path _ _ (hs.2 h), rangeRows_rowBody]
    rfl

/-- The sample workbook: two header rows, then a row with one cell, an empty
row and a row with two cells. -/
theorem spreadsheet_rows_in_order_witness :
    (ReadFileToEntries sampleEnv "book.xlsx" .BelgiumFileEntry).events =
      [.send (.entries [["r1"]]), .send (.entries [["r2"], ["r3"]]), .close] ∧
    (ReadFileToEntries sampleEnv "book.xlsx" .NetherlandsFileEntry).events =
      [.send (.entry ["r1"]), .send (.entry []), .send (.entry ["r2", "r3"]), .close] ∧
    (ReadFileToEntries sampleEnv "book.xlsx" .LiechtensteinFileEntry).events =
      [.send (.entry ["h2"]), .send (.entry ["r1"]), .send (.entry []),
        .send (.entry ["r2", "r3"]), .close] :=
  ⟨((spreadsheet_rows_in_order sampleEnv "book.xlsx"
      [["h1"], ["h2"], ["r1"], [], ["r2", "r3"]] [] (by decide)).1 (by decide)).1,
   ((spreadsheet_rows_in_order sampleEnv "book.xlsx"
      [["h1"], ["h2"], ["r1"], [], ["r2", "r3"]] [] (by decide)).1 (by decide)).2.1,
   (spreadsheet_rows_in_order sampleEnv "book.xlsx"
      [["h1"], ["h2"], ["r1"], [], ["r2", "r3"]] [] (by decide)).2 (by decide)⟩

/-- C10 fails on the code: for an Austrian file of eight non-empty lines `"1"`
to `"8"` the only entry sent is the parse of the eighth line; the seventh line
is skipped with the six before it. -/
theorem austria_first_entry_is_eighth_line :
    sampleEnv.readLines "lines.txt" = ["1", "2", "3", "4", "5", "6", "7", "8"] ∧
    ReadFileToEntries sampleEnv "lines.txt" .AustriaBankFileEntry =
      { events := [.send (.entry (sampleEnv.AustriaBankStringToEntry "8" sampleEnv.table)),
                   .close]
        exit := .ret } ∧
    firstReceived (ReadFileToEntries sampleEnv "lines.txt" .AustriaBankFileEntry).events ≠
      some (.entry (sampleEnv.AustriaBankStringToEntry "7" sampleEnv.table)) := by
  refine ⟨by decide, by decide, by decide⟩

/-- C7 fails on the code: in an Austrian file whose first six lines are the
header and whose seventh line is empty, the empty line is the first data line
and calls for a single `nil` and nothing after it; the code skips it unseen
with the header, sends the parses of the eighth and ninth lines and closes,
and never sends `nil`. -/
theorem austria_empty_seventh_line_unnoticed :
    sampleEnv.readLines "gap.txt" = ["1", "2", "3", "4", "5", "6", "", "8", "9"] ∧
    ReadFileToEntries sampleEnv "gap.txt" .AustriaBankFileEntry =
      { events := [.send (.entry (sampleEnv.AustriaBankStringToEntry "8" sampleEnv.table)),
                   .send (.entry (sampleEnv.AustriaBankStringToEntry "9" sampleEnv.table)),
                   .close]
        exit := .ret } ∧
    ChanEvent.send StreamValue.absent ∉
      (ReadFileToEntries sampleEnv "gap.txt" .AustriaBankFileEntry).events ∧
    (ReadFileToEntries sampleEnv "gap.txt" .AustriaBankFileEntry).events ≠
      [.send .absent] := by
  refine ⟨by decide, by decide, by decide, by decide⟩

end Goiban
